import Mathlib

/- Batteries marks rational arithmetic `@[irreducible]`, which blocks
`decide`-style evaluation of the embedded functions on concrete inputs;
restore the definitional behaviour locally (transparency only — every
proof still goes through the kernel). -/
set_option allowUnsafeReducibility true
attribute [local semireducible] Rat.mul Rat.add Rat.sub Rat.inv

/-!
Verification of the frame-driven parking-occupancy engine
(`app/core/detector.py`, `app/core/predictor.py`, `app/core/processor.py`).

The Python code is shallowly embedded: images become explicit
height/width/channel grids of rational intensities, `float` values that can
be infinite or NaN (they arise from `float('inf')` and from `np.mean` of an
empty crop) become the inductive type `PyFloat`, exceptions become an
explicit `raised : Bool` component threaded through each loop (keeping the
partial state mutations that happened before the raise, exactly as the
`try/except` in `process_frame` does), and the external collaborators
(OpenCV's connected-components call and the pickled sklearn model) are
opaque deterministic functions supplied as parameters.
-/

namespace SmartParking

/-- A Python `float` as it occurs in the difference pipeline: a finite
rational, `float('inf')`, `float('-inf')` or NaN. -/
inductive PyFloat where
  | num (q : ℚ)
  | inf
  | neginf
  | nan
deriving DecidableEq, Repr

namespace PyFloat

/-- Python's `>` on floats (`nan` compares false with everything). -/
def gt : PyFloat → PyFloat → Bool
  | num a, num b => a > b
  | num _, inf => false
  | num _, neginf => true
  | inf, num _ => true
  | inf, inf => false
  | inf, neginf => true
  | neginf, _ => false
  | nan, _ => false
  | _, nan => false

/-- Python's `>=` on floats (`nan` compares false with everything). -/
def ge : PyFloat → PyFloat → Bool
  | num a, num b => a ≥ b
  | num _, inf => false
  | num _, neginf => true
  | inf, nan => false
  | inf, _ => true
  | neginf, neginf => true
  | neginf, _ => false
  | nan, _ => false
  | _, nan => false

/-- Python's `==` against the integer `0`. -/
def eqZero : PyFloat → Bool
  | num q => q = 0
  | _ => false

/-- Python float multiplication by a finite rational
(`inf * 0.0 = nan`, `inf * t = ±inf` for `t ≠ 0`). -/
def mulRat : PyFloat → ℚ → PyFloat
  | num a, t => num (a * t)
  | inf, t => if t = 0 then nan else if 0 < t then inf else neginf
  | neginf, t => if t = 0 then nan else if 0 < t then neginf else inf
  | nan, _ => nan

/-- Python float subtraction. -/
def sub : PyFloat → PyFloat → PyFloat
  | num a, num b => num (a - b)
  | num _, inf => neginf
  | num _, neginf => inf
  | inf, num _ => inf
  | inf, inf => nan
  | inf, neginf => inf
  | neginf, num _ => neginf
  | neginf, inf => neginf
  | neginf, neginf => nan
  | nan, _ => nan
  | _, nan => nan

/-- `np.abs` on a Python float. -/
def absVal : PyFloat → PyFloat
  | num a => num |a|
  | inf => inf
  | neginf => inf
  | nan => nan

end PyFloat

/-- Python's `>` lifted to optional floats: comparing `None` with anything
raises `TypeError` (modelled as `Except.error`). -/
def pyGtOpt : Option PyFloat → Option PyFloat → Except Unit Bool
  | some a, some b => .ok (a.gt b)
  | _, _ => .error ()

/-- Python's `max` over a list: seeded with the first element, replaced
whenever a later element compares `>`; raises on an empty list or on a
`None`-vs-float comparison. -/
def pyMax (l : List (Option PyFloat)) : Except Unit (Option PyFloat) :=
  match l with
  | [] => .error ()
  | x :: xs =>
    xs.foldlM (fun acc y => do
      let b ← pyGtOpt y acc
      pure (if b then y else acc)) x

/-- One spot rectangle `(x, y, width, height)` as produced by
`ParkingSpotDetector.detect_spots` (Python `int`s). -/
abbrev Spot : Type := Int × Int × Int × Int

/-- A decoded video frame: a numpy array of `dims` axes; when `dims = 3`
the shape is `(height, width, channels)` and `pixel i j c` is the
intensity at row `i`, column `j`, channel `c`. -/
structure Frame where
  dims : Nat
  height : Nat
  width : Nat
  channels : Nat
  pixel : Nat → Nat → Nat → ℚ

/-- A cropped region of interest (always 3-axis, produced by
`frame[y1:y1+h, x1:x1+w, :]`). -/
structure Roi where
  height : Nat
  width : Nat
  channels : Nat
  pixel : Nat → Nat → Nat → ℚ

/-- `ndarray.size`: number of elements. -/
def Roi.size (r : Roi) : Nat := r.height * r.width * r.channels

/-- `ndarray.shape`. -/
def Roi.shape (r : Roi) : Nat × Nat × Nat := (r.height, r.width, r.channels)

/-- Sum of all intensities of a region. -/
def Roi.total (r : Roi) : ℚ :=
  ∑ i ∈ Finset.range r.height, ∑ j ∈ Finset.range r.width,
    ∑ c ∈ Finset.range r.channels, r.pixel i j c

/-- `np.mean`: the average intensity; NaN on an empty array. -/
def Roi.mean (r : Roi) : PyFloat :=
  if r.size = 0 then .nan else .num (r.total / (r.size : ℚ))

/-- Resolve one endpoint of a Python slice `a[i:...]` against an axis of
length `len`: negative indices count from the end, and both ends clamp
into `[0, len]`. -/
def resolveIdx (i : Int) (len : Nat) : Nat :=
  if i < 0 then ((len : Int) + i).toNat else min i.toNat len

/-- `frame[y1:y1+h, x1:x1+w, :]`: raises `IndexError` when the array does
not have three axes; otherwise slices with numpy clamping semantics. -/
def Frame.crop (f : Frame) (s : Spot) : Except Unit Roi :=
  let (x, y, w, h) := s
  if f.dims ≠ 3 then .error ()
  else
    let r0 := resolveIdx y f.height
    let r1 := resolveIdx (y + h) f.height
    let c0 := resolveIdx x f.width
    let c1 := resolveIdx (x + w) f.width
    .ok { height := r1 - r0, width := c1 - c0, channels := f.channels,
          pixel := fun i j c => f.pixel (r0 + i) (c0 + j) c }

/-- `VideoProcessor._calculate_difference`: `inf` on mismatched shapes,
otherwise the absolute difference of the two means. -/
def calculateDifference (img1 img2 : Roi) : PyFloat :=
  if img1.shape ≠ img2.shape then .inf
  else (img1.mean.sub img2.mean).absVal

/-- The global pydantic `settings` object as consulted by
`_update_spot_statuses` (`CONFIDENCE_THRESHOLD` defaults to 0.5,
`INVERT_PREDICTION` to false). -/
structure AppSettings where
  confidenceThreshold : ℚ
  invertPrediction : Bool

/-- The loaded pickled model, an external collaborator: opaque
deterministic functions of the cropped region (the resize / rescale /
flatten preprocessing in `predict` is folded into these opaque maps).
`raises` models the model throwing during inference. -/
structure MLModel where
  hasPredictProba : Bool
  predictProba : Roi → ℚ × ℚ
  predictLabel : Roi → Int
  raises : Roi → Bool

/-- `ParkingSpotPredictor.EMPTY`. -/
def EMPTY : Bool := true

/-- `ParkingSpotPredictor.OCCUPIED`. -/
def OCCUPIED : Bool := false

/-- `ParkingSpotPredictor.predict` for a constructed predictor (whose
model was loaded in `__init__`): `None` or empty images and any exception
inside the `try` yield `OCCUPIED`; otherwise either a probability-backed
path gated by the confidence threshold or a plain label path. -/
def predict (m : MLModel) (spotImage : Option Roi) (confidenceThreshold : ℚ) : Bool :=
  match spotImage with
  | none => OCCUPIED
  | some img =>
    if img.size = 0 then OCCUPIED
    else if m.raises img then OCCUPIED
    else if m.hasPredictProba then
      let p := m.predictProba img
      if p.1 ≥ confidenceThreshold then EMPTY
      else if p.2 ≥ confidenceThreshold then OCCUPIED
      else if p.1 > p.2 then EMPTY else OCCUPIED
    else
      let prediction := m.predictLabel img
      if prediction = 0 then EMPTY
      else if prediction = 1 then OCCUPIED
      else OCCUPIED

/-- The mutable state of a `VideoProcessor`. -/
structure VPState where
  processingStep : Nat
  diffThreshold : ℚ
  spots : List Spot
  spotsStatus : List (Option Bool)
  diffs : List (Option PyFloat)
  previousFrame : Option Frame
  frameNumber : Nat
  totalFrames : Nat
  processedFrames : Nat

/-- The loop body of `VideoProcessor._update_differences`: walks the spots
in order, cropping both frames and writing `diffs[idx]`; an `IndexError`
(array without three axes, or an out-of-range list write) aborts the loop,
keeping the writes already made. The second component records whether the
loop raised. -/
def updateDiffsLoop (cur prev : Frame) :
    List Spot → List (Option PyFloat) → Nat → List (Option PyFloat) × Bool
  | [], diffs, _ => (diffs, false)
  | s :: rest, diffs, idx =>
    match cur.crop s, prev.crop s with
    | .ok r1, .ok r2 =>
      if idx < diffs.length then
        updateDiffsLoop cur prev rest
          (diffs.set idx (some (calculateDifference r1 r2))) (idx + 1)
      else (diffs, true)
    | _, _ => (diffs, true)

/-- `VideoProcessor._get_spots_to_check`: all indices on the first sample
or when `diffs` is empty; all indices when the maximum difference equals
0; otherwise the indices whose difference is at least
`max_diff * diff_threshold`, falling back to all indices when that list is
empty. Python comparisons that hit `None` raise `TypeError`. -/
def getSpotsToCheck (st : VPState) : Except Unit (List Nat) :=
  match st.previousFrame with
  | none => .ok (List.range st.spots.length)
  | some _ =>
    if st.diffs.isEmpty then .ok (List.range st.spots.length)
    else
      match pyMax st.diffs with
      | .error e => .error e
      | .ok m =>
        if (match m with | some f => f.eqZero | none => false) then
          .ok (List.range st.spots.length)
        else
          match m with
          | none => .error ()
          | some maxDiff =>
            let threshold := maxDiff.mulRat st.diffThreshold
            let spotsToCheck :=
              (st.diffs.enum.filter fun p =>
                match p.2 with
                | some d => d.ge threshold
                | none => false).map Prod.fst
            .ok (if spotsToCheck.isEmpty then List.range st.spots.length
                 else spotsToCheck)

/-- The loop body of `VideoProcessor._update_spot_statuses`: for each
candidate index, crop the spot from the frame; an empty crop is skipped;
otherwise the predictor is invoked with the settings' confidence
threshold, optionally inverted, and the status written. `IndexError`
(bad list index or an array without three axes) aborts the loop keeping
the writes already made. -/
def statusLoop (settings : AppSettings) (model : MLModel) (frame : Frame) :
    List Nat → List Spot → List (Option Bool) → List (Option Bool) × Bool
  | [], _, status => (status, false)
  | idx :: rest, spots, status =>
    match spots.get? idx with
    | none => (status, true)
    | some s =>
      match frame.crop s with
      | .error _ => (status, true)
      | .ok roi =>
        if 0 < roi.size then
          if idx < status.length then
            let p := predict model (some roi) settings.confidenceThreshold
            let p := if settings.invertPrediction then !p else p
            statusLoop settings model frame rest spots (status.set idx (some p))
          else (status, true)
        else statusLoop settings model frame rest spots status

/-- `VideoProcessor._update_spot_statuses`: compute the candidate set and
run the classification loop; a raise inside `_get_spots_to_check`
propagates with the statuses untouched. -/
def updateSpotStatuses (settings : AppSettings) (model : MLModel)
    (st : VPState) (frame : Frame) : List (Option Bool) × Bool :=
  match getSpotsToCheck st with
  | .error _ => (st.spotsStatus, true)
  | .ok l => statusLoop settings model frame l st.spots st.spotsStatus

/-- `VideoProcessor.process_frame` for a caller-supplied frame: the frame
counters always advance; on a sampling frame (`frame_number` divisible by
`processing_step`) the differences and statuses are updated and the
previous-frame snapshot replaced; any exception is caught, keeping the
state mutations already made, and the frame is rejected (the method
returns `None`, modelled by the second component `false`). -/
def processFrame (settings : AppSettings) (model : MLModel)
    (st : VPState) (frame : Frame) : VPState × Bool :=
  let st1 := { st with frameNumber := st.frameNumber + 1,
                       totalFrames := st.totalFrames + 1 }
  if st1.processingStep = 0 then (st1, false)
  else if st1.frameNumber % st1.processingStep = 0 then
    let st2 := { st1 with processedFrames := st1.processedFrames + 1 }
    let stepDiffs :=
      match st2.previousFrame with
      | none => (st2, false)
      | some prev =>
        let r := updateDiffsLoop frame prev st2.spots st2.diffs 0
        ({ st2 with diffs := r.1 }, r.2)
    let st3 := stepDiffs.1
    if stepDiffs.2 then (st3, false)
    else
      let r := updateSpotStatuses settings model st3 frame
      let st4 := { st3 with spotsStatus := r.1 }
      if r.2 then (st4, false)
      else ({ st4 with previousFrame := some frame }, true)
  else (st1, true)

/-- One row of the stats matrix returned by
`cv2.connectedComponentsWithStats`: the bounding box of one label. -/
structure CCStats where
  left : Nat
  top : Nat
  width : Nat
  height : Nat
deriving DecidableEq, Repr

/-- Abstract model of a successfully decoded grayscale mask together with
the output of `cv2.connectedComponentsWithStats(mask, 4, cv2.CV_32S)`:
the OpenCV call is an external library, modelled as the deterministic
component data it returns — one stats row per maximal 4-connected
component of non-zero pixels, row 0 being the background component. -/
structure MaskCC where
  totalLabels : Nat
  stats : Nat → CCStats

/-- `ParkingSpotDetector` after construction. -/
structure ParkingSpotDetector where
  mask : Option MaskCC
  scaleCoef : ℚ

/-- Python `int()` applied to a float: truncation toward zero
(`Int.tdiv` is truncating division, and a rational is `num / den` in
lowest terms with positive denominator). -/
def pyInt (q : ℚ) : Int := q.num.tdiv q.den

/-- The scaled bounding box one loop iteration of `detect_spots` builds
from a stats row: `int(value * scale_coef)` applied to each field. -/
def scaledBox (s : CCStats) (c : ℚ) : Spot :=
  (pyInt ((s.left : ℚ) * c), pyInt ((s.top : ℚ) * c),
   pyInt ((s.width : ℚ) * c), pyInt ((s.height : ℚ) * c))

/-- `ParkingSpotDetector.__init__` / `_load_mask`: `cv2.imread` returning
`None` (unreadable mask) raises, so the detector is never constructed. -/
def detectorNew (imreadResult : Option MaskCC) (scaleCoef : ℚ) :
    Except Unit ParkingSpotDetector :=
  match imreadResult with
  | none => .error ()
  | some m => .ok { mask := some m, scaleCoef := scaleCoef }

/-- `ParkingSpotDetector.detect_spots`: raises when the mask is not
loaded; otherwise walks labels `1 .. total_labels - 1` in order, scales
each bounding box and keeps those with `w > 10 and h > 10`. An empty
result is returned normally, not raised. -/
def detectSpots (d : ParkingSpotDetector) : Except Unit (List Spot) :=
  match d.mask with
  | none => .error ()
  | some m =>
    .ok ((((List.range m.totalLabels).drop 1).map
            (fun i => scaledBox (m.stats i) d.scaleCoef)).filter
          (fun s => decide (10 < s.2.2.1) && decide (10 < s.2.2.2)))

/-- `VideoProcessor.initialize`: the video-source validation (an external
OpenCV concern) is summarised by `videoOk`; on success the spot list is
detected and the status and difference tables are allocated with `None`
entries; any raise is caught and reported as `False`. -/
def initProcessor (d : ParkingSpotDetector) (videoOk : Bool)
    (st : VPState) : VPState × Bool :=
  if videoOk = false then (st, false)
  else
    match detectSpots d with
    | .error _ => (st, false)
    | .ok spots =>
      ({ st with spots := spots,
                 spotsStatus := List.replicate spots.length none,
                 diffs := List.replicate spots.length none }, true)

/-- The dictionary returned by `VideoProcessor.get_statistics`. -/
structure EngineStats where
  totalSpots : Nat
  availableSpots : Nat
  occupiedSpots : Nat
  unknownSpots : Nat
  availabilityRate : ℚ
  totalFrames : Nat
  processedFrames : Nat
  currentFrame : Nat
deriving DecidableEq, Repr

/-- `VideoProcessor.get_statistics`. -/
def getStatistics (st : VPState) : EngineStats :=
  let available := st.spotsStatus.countP (fun s => s = some true)
  let occupied := st.spotsStatus.countP (fun s => s = some false)
  let unknown := st.spotsStatus.countP (fun s => s = none)
  { totalSpots := st.spots.length
    availableSpots := available
    occupiedSpots := occupied
    unknownSpots := unknown
    availabilityRate :=
      if st.spots.isEmpty then 0 else (available : ℚ) / (st.spots.length : ℚ)
    totalFrames := st.totalFrames
    processedFrames := st.processedFrames
    currentFrame := st.frameNumber }

/-! ## Claim-side definitions

These render the spec's wording, to be compared with the definitions
embedded from the source. -/

/-- The value Python's `max` computes over a nonempty list of floats:
fold keeping the running maximum (for NaN-free lists this is the true
maximum under `PyFloat.ge`, as proved below). -/
def pyMaxVals : List PyFloat → Option PyFloat
  | [] => none
  | x :: xs => some (xs.foldl (fun acc y => if y.gt acc then y else acc) x)

/-- The spec's threshold `diff_threshold × M`, read in the extended
nonnegative reals where `0 × ∞ = 0`. -/
def specThreshold (thr : ℚ) : PyFloat → PyFloat
  | .inf => if thr = 0 then .num 0 else .inf
  | m => m.mulRat thr

/-- The candidate set exactly as the spec words it: all `n` spot indices
when there is no maximum (no magnitudes) or when the maximum magnitude
`M` equals 0; otherwise every index whose magnitude is at least
`diff_threshold × M`, falling back to all indices when that set is
empty. -/
def specCandidates (thr : ℚ) (l : List PyFloat) (n : Nat) : List Nat :=
  match pyMaxVals l with
  | none => List.range n
  | some M =>
    if M = .num 0 then List.range n
    else
      let c := (List.range n).filter fun i => (l.getD i .nan).ge (specThreshold thr M)
      if c.isEmpty then List.range n else c

/-- The extraction result as the spec words it: one spot per
non-background component whose post-scale width and height both exceed
10 pixels, in label order. -/
def survivors (m : MaskCC) (c : ℚ) : List Spot :=
  ((List.range m.totalLabels).drop 1).filterMap fun i =>
    let b := scaledBox (m.stats i) c
    if decide (10 < b.2.2.1) && decide (10 < b.2.2.2) then some b else none

/-- The status and difference tables cover exactly the spot list (the
spec's invariant, established by initialization). -/
def TablesAligned (st : VPState) : Prop :=
  st.spotsStatus.length = st.spots.length

/-- The value `_update_spot_statuses` leaves at index `i` when `i` is a
candidate (derived per-index characterization of one loop iteration):
a classified crop overwrites the status, an empty crop leaves it. -/
def spotResult (settings : AppSettings) (model : MLModel) (frame : Frame)
    (spots : List Spot) (status0 : List (Option Bool)) (i : Nat) : Option Bool :=
  match spots.get? i with
  | none => status0.getD i none
  | some s =>
    match frame.crop s with
    | .error _ => status0.getD i none
    | .ok roi =>
      if 0 < roi.size then
        some (if settings.invertPrediction
          then !(predict model (some roi) settings.confidenceThreshold)
          else predict model (some roi) settings.confidenceThreshold)
      else status0.getD i none

/-! ## Concrete fixtures used by witnesses and counterexamples -/

/-- A frame of constant zero intensity with the given number of axes and
shape. -/
def flatFrame (d h w c : Nat) : Frame :=
  { dims := d, height := h, width := w, channels := c, pixel := fun _ _ _ => 0 }

/-- A 100×100 3-channel colour frame. -/
def bigFrame : Frame := flatFrame 3 100 100 3

/-- A 5×5 3-channel colour frame, far smaller than the spot regions. -/
def smallFrame : Frame := flatFrame 3 5 5 3

/-- A 100×100 grayscale frame: a 2-axis array. -/
def grayFrame : Frame := flatFrame 2 100 100 1

/-- A spot region requiring at least a 30×30 frame. -/
def spotA : Spot := (10, 10, 20, 20)

/-- A plain-label model that always predicts label 0 (empty) and never
throws. -/
def plainModel : MLModel :=
  { hasPredictProba := false, predictProba := fun _ => (0, 0),
    predictLabel := fun _ => 0, raises := fun _ => false }

/-- A model whose inference always throws. -/
def throwingModel : MLModel :=
  { hasPredictProba := false, predictProba := fun _ => (0, 0),
    predictLabel := fun _ => 0, raises := fun _ => true }

/-- The default global settings (`CONFIDENCE_THRESHOLD = 0.5`,
`INVERT_PREDICTION = False`). -/
def stdSettings : AppSettings :=
  { confidenceThreshold := 1/2, invertPrediction := false }

/-- A freshly initialized engine with one spot and cadence 1. -/
def oneSpotState : VPState :=
  { processingStep := 1, diffThreshold := 2/5, spots := [spotA],
    spotsStatus := [none], diffs := [none], previousFrame := none,
    frameNumber := 0, totalFrames := 0, processedFrames := 0 }

/-- An engine mid-run: two spots, magnitudes 1 and 4, threshold 0.5. -/
def twoSpotState : VPState :=
  { processingStep := 1, diffThreshold := 1/2,
    spots := [(0, 0, 20, 20), (30, 30, 20, 20)],
    spotsStatus := [none, none],
    diffs := [some (.num 1), some (.num 4)],
    previousFrame := some bigFrame,
    frameNumber := 5, totalFrames := 5, processedFrames := 2 }

/-- An engine with four spots: three empty, one occupied. -/
def fourSpotState : VPState :=
  { processingStep := 30, diffThreshold := 2/5,
    spots := [(0, 0, 20, 20), (0, 30, 20, 20), (30, 0, 20, 20), (30, 30, 20, 20)],
    spotsStatus := [some true, some true, some true, some false],
    diffs := [none, none, none, none], previousFrame := none,
    frameNumber := 7, totalFrames := 7, processedFrames := 0 }

/-- A mask whose single non-background component is 5×5: too small to
survive the `w > 10 and h > 10` filter. -/
def tinyMask : MaskCC :=
  { totalLabels := 2,
    stats := fun _ => { left := 0, top := 0, width := 5, height := 5 } }

/-- A mask with two 20×20 components (plus background). -/
def twoSpotMask : MaskCC :=
  { totalLabels := 3,
    stats := fun i =>
      if i = 1 then { left := 10, top := 10, width := 20, height := 20 }
      else if i = 2 then { left := 50, top := 50, width := 20, height := 20 }
      else { left := 0, top := 0, width := 100, height := 100 } }

/-! ## Helper lemmas -/

/-- The indices (counting from `n`) of the elements of `l` satisfying
`P`, in order. -/
def idxWhere (P : α → Bool) : List α → Nat → List Nat
  | [], _ => []
  | x :: xs, n => if P x then n :: idxWhere P xs (n + 1) else idxWhere P xs (n + 1)

theorem getD_set_self {α : Type} (l : List α) (i : Nat) (a d : α)
    (h : i < l.length) : (l.set i a).getD i d = a := by
  induction l generalizing i with
  | nil => simp at h
  | cons x xs ih =>
    cases i with
    | zero => rfl
    | succ j => exact ih j (Nat.lt_of_succ_lt_succ h)

theorem getD_set_ne {α : Type} (l : List α) (i j : Nat) (a d : α)
    (h : i ≠ j) : (l.set i a).getD j d = l.getD j d := by
  induction l generalizing i j with
  | nil => rfl
  | cons x xs ih =>
    cases i with
    | zero => cases j with
      | zero => exact absurd rfl h
      | succ k => rfl
    | succ i2 => cases j with
      | zero => rfl
      | succ k => exact ih i2 k (fun hq => h (by rw [hq]))

theorem PyFloat.ge_refl (a : PyFloat) (h : a ≠ .nan) : a.ge a = true := by
  cases a <;> simp_all [PyFloat.ge]

theorem PyFloat.gt_imp_ge {a b : PyFloat} (h : a.gt b = true) : a.ge b = true := by
  cases a <;> cases b <;> simp_all [PyFloat.gt, PyFloat.ge] <;> linarith

theorem PyFloat.not_gt_imp_ge {a b : PyFloat} (ha : a ≠ .nan) (hb : b ≠ .nan)
    (h : b.gt a = false) : a.ge b = true := by
  cases a <;> cases b <;> simp_all [PyFloat.gt, PyFloat.ge] <;> linarith

theorem PyFloat.ge_trans {a b c : PyFloat} (hab : a.ge b = true)
    (hbc : b.ge c = true) : a.ge c = true := by
  cases a <;> cases b <;> cases c <;> simp_all [PyFloat.ge] <;> linarith

theorem PyFloat.ge_nan (a : PyFloat) : a.ge .nan = false := by
  cases a <;> rfl

/-- Python's `max` over a list of non-`None` floats never raises and
computes the running maximum. -/
theorem pyMax_map_some (x : PyFloat) (xs : List PyFloat) :
    pyMax ((x :: xs).map some) = .ok (pyMaxVals (x :: xs)) := by
  show (xs.map some).foldlM _ (some x) = _
  simp only [pyMaxVals]
  induction xs generalizing x with
  | nil => rfl
  | cons y ys ih =>
    simp only [List.map, List.foldlM, List.foldl]
    have hstep : (do
        let b ← pyGtOpt (some y) (some x)
        pure (if b then some y else some x) : Except Unit (Option PyFloat)) =
        Except.ok (some (if y.gt x then y else x)) := by
      show Except.ok (if y.gt x then some y else some x) = _
      by_cases h : y.gt x <;> simp [h]
    rw [hstep]
    exact ih (if y.gt x then y else x)

/-- The fold underlying `pyMaxVals` returns either its seed or a list
element. -/
theorem foldl_max_choice (xs : List PyFloat) (a : PyFloat) :
    xs.foldl (fun acc y => if y.gt acc then y else acc) a = a ∨
    xs.foldl (fun acc y => if y.gt acc then y else acc) a ∈ xs := by
  induction xs generalizing a with
  | nil => exact Or.inl rfl
  | cons y ys ih =>
    simp only [List.foldl]
    rcases ih (if y.gt a then y else a) with h | h
    · rw [h]
      by_cases hg : y.gt a
      · simp [hg]
      · simp [hg]
    · exact Or.inr (List.mem_cons_of_mem _ h)

theorem pyMaxVals_mem {l : List PyFloat} {M : PyFloat}
    (h : pyMaxVals l = some M) : M ∈ l := by
  cases l with
  | nil => simp [pyMaxVals] at h
  | cons x xs =>
    simp only [pyMaxVals, Option.some_inj] at h
    rcases foldl_max_choice xs x with hc | hc
    · rw [← h, hc]; exact List.mem_cons_self x xs
    · rw [← h]; exact List.mem_cons_of_mem _ hc

/-- The fold underlying `pyMaxVals` is an upper bound (NaN-free lists). -/
theorem foldl_max_ub (xs : List PyFloat) (a : PyFloat) (ha : a ≠ .nan)
    (hxs : ∀ y ∈ xs, y ≠ .nan) :
    ((xs.foldl (fun acc y => if y.gt acc then y else acc) a).ge a = true) ∧
    ∀ y ∈ xs, (xs.foldl (fun acc y => if y.gt acc then y else acc) a).ge y = true := by
  induction xs generalizing a with
  | nil => exact ⟨PyFloat.ge_refl a ha, by simp⟩
  | cons y ys ih =>
    have hy : y ≠ .nan := hxs y (List.mem_cons_self y ys)
    have hys : ∀ z ∈ ys, z ≠ .nan := fun z hz => hxs z (List.mem_cons_of_mem _ hz)
    have hbne : (if y.gt a then y else a) ≠ .nan := by
      by_cases hg : y.gt a <;> simp [hg, hy, ha]
    obtain ⟨hge, hall⟩ := ih (if y.gt a then y else a) hbne hys
    have hba : (if y.gt a then y else a).ge a = true := by
      by_cases hg : y.gt a
      · simpa [hg] using PyFloat.gt_imp_ge hg
      · simpa [hg] using PyFloat.ge_refl a ha
    have hby : (if y.gt a then y else a).ge y = true := by
      by_cases hg : y.gt a
      · simpa [hg] using PyFloat.ge_refl y hy
      · simpa [hg] using PyFloat.not_gt_imp_ge ha hy (by simpa using hg)
    refine ⟨PyFloat.ge_trans hge hba, ?_⟩
    intro z hz
    rcases List.mem_cons.mp hz with rfl | hz2
    · exact PyFloat.ge_trans hge hby
    · exact hall z hz2

theorem pyMaxVals_isMax {l : List PyFloat} {M : PyFloat}
    (h : pyMaxVals l = some M) (hl : ∀ d ∈ l, d ≠ .nan) :
    ∀ d ∈ l, M.ge d = true := by
  cases l with
  | nil => simp [pyMaxVals] at h
  | cons x xs =>
    simp only [pyMaxVals, Option.some_inj] at h
    obtain ⟨hge, hall⟩ := foldl_max_ub xs x (hl x (List.mem_cons_self x xs))
      (fun z hz => hl z (List.mem_cons_of_mem _ hz))
    intro d hd
    rcases List.mem_cons.mp hd with rfl | hd2
    · rw [← h]; exact hge
    · rw [← h]; exact hall d hd2

theorem PyFloat.eqZero_iff (a : PyFloat) : a.eqZero = true ↔ a = .num 0 := by
  cases a <;> simp [PyFloat.eqZero]

theorem idxWhere_false {α : Type} (P : α → Bool) (l : List α) (n : Nat)
    (h : ∀ d ∈ l, P d = false) : idxWhere P l n = [] := by
  induction l generalizing n with
  | nil => rfl
  | cons x xs ih =>
    simp only [idxWhere, h x (List.mem_cons_self x xs)]
    exact ih (n + 1) (fun d hd => h d (List.mem_cons_of_mem _ hd))

/-- The index list `_get_spots_to_check` builds from `enumerate(diffs)`
over an all-`some` difference table, as `idxWhere`. -/
theorem enum_filter_map_fst (P : PyFloat → Bool) (l : List PyFloat) (n : Nat) :
    ((((l.map some).enumFrom n).filter fun p =>
      match p.2 with | some d => P d | none => false).map Prod.fst) =
    idxWhere P l n := by
  induction l generalizing n with
  | nil => rfl
  | cons x xs ih =>
    simp only [List.map, List.enumFrom, List.filter_cons]
    by_cases hp : P x
    · simp only [hp, idxWhere, if_pos, List.map]
      rw [ih (n + 1)]
    · simp only [hp, idxWhere, if_neg, Bool.false_eq_true, ite_false]
      exact ih (n + 1)

/-- The spec-side filtered index range, as `idxWhere`. -/
theorem range'_filter_getD (P : PyFloat → Bool) (l : List PyFloat) (s : Nat)
    (d : PyFloat) :
    ((List.range' s l.length).filter fun i => P (l.getD (i - s) d)) =
    idxWhere P l s := by
  induction l generalizing s with
  | nil => rfl
  | cons x xs ih =>
    have hr : List.range' s (xs.length + 1) = s :: List.range' (s + 1) xs.length := rfl
    simp only [List.length_cons, hr, List.filter_cons, Nat.sub_self,
      List.getD_cons_zero]
    have htail : ((List.range' (s + 1) xs.length).filter
        fun i => P ((x :: xs).getD (i - s) d)) =
        ((List.range' (s + 1) xs.length).filter
        fun i => P (xs.getD (i - (s + 1)) d)) := by
      apply List.filter_congr
      intro i hi
      have hs : s + 1 ≤ i := (List.mem_range'_1.mp hi).1
      have hk : i - s = (i - (s + 1)) + 1 := by omega
      rw [hk, List.getD_cons_succ]
    rw [htail, ih (s + 1)]
    rfl

theorem range_filter_getD (P : PyFloat → Bool) (l : List PyFloat) (d : PyFloat) :
    ((List.range l.length).filter fun i => P (l.getD i d)) = idxWhere P l 0 := by
  have h := range'_filter_getD P l 0 d
  rw [List.range_eq_range']
  simpa using h

/-- Indices outside the candidate list are never written by the
classification loop, even when the loop aborts mid-way. -/
theorem statusLoop_not_mem (settings : AppSettings) (model : MLModel)
    (frame : Frame) (toCheck : List Nat) (spots : List Spot)
    (status : List (Option Bool)) (i : Nat) (hi : i ∉ toCheck) :
    (statusLoop settings model frame toCheck spots status).1.getD i none =
    status.getD i none := by
  induction toCheck generalizing status with
  | nil => rfl
  | cons j rest ih =>
    have hij : j ≠ i := fun h => hi (h ▸ List.mem_cons_self j rest)
    have hir : i ∉ rest := fun h => hi (List.mem_cons_of_mem j h)
    simp only [statusLoop]
    cases hs : spots.get? j with
    | none => rfl
    | some s =>
      simp only [hs]
      cases hc : frame.crop s with
      | error e => rfl
      | ok roi =>
        simp only [hc]
        by_cases hsz : 0 < roi.size
        · simp only [hsz, if_true]
          by_cases hjl : j < status.length
          · simp only [hjl, if_true]
            rw [ih _ hir, getD_set_ne _ _ _ _ _ hij]
          · simp [hjl]
        · simp only [hsz, if_false]
          exact ih status hir

/-- Writing another index does not change what one loop iteration computes
for index `i`. -/
theorem spotResult_set_ne (settings : AppSettings) (model : MLModel)
    (frame : Frame) (spots : List Spot) (status : List (Option Bool))
    (j : Nat) (v : Option Bool) (i : Nat) (hij : j ≠ i) :
    spotResult settings model frame spots (status.set j v) i =
    spotResult settings model frame spots status i := by
  unfold spotResult
  cases hs : spots.get? i with
  | none =>
    simp only [hs]
    exact getD_set_ne _ _ _ _ _ hij
  | some s =>
    simp only [hs]
    cases hc : frame.crop s with
    | error e =>
      simp only [hc]
      exact getD_set_ne _ _ _ _ _ hij
    | ok roi =>
      simp only [hc]
      by_cases hsz : 0 < roi.size
      · simp [hsz]
      · simp only [hsz, if_false]
        exact getD_set_ne _ _ _ _ _ hij

/-- When every candidate index is in range and its crop succeeds, the
classification loop never raises, and each index ends with `spotResult`
(candidates) or its previous status (non-candidates). -/
theorem statusLoop_characterize (settings : AppSettings) (model : MLModel)
    (frame : Frame) (toCheck : List Nat) (spots : List Spot)
    (status : List (Option Bool))
    (hok : ∀ j ∈ toCheck, ∃ s roi, spots.get? j = some s ∧
      frame.crop s = .ok roi ∧ j < status.length) :
    (statusLoop settings model frame toCheck spots status).2 = false ∧
    ∀ i, (statusLoop settings model frame toCheck spots status).1.getD i none =
      if i ∈ toCheck then spotResult settings model frame spots status i
      else status.getD i none := by
  induction toCheck generalizing status with
  | nil =>
    refine ⟨rfl, fun i => ?_⟩
    simp [statusLoop]
  | cons j rest ih =>
    obtain ⟨s, roi, hs, hc, hjl⟩ := hok j (List.mem_cons_self j rest)
    simp only [statusLoop, hs, hc]
    by_cases hsz : 0 < roi.size
    · simp only [hsz, if_true, hjl]
      set p := (if settings.invertPrediction
        then !(predict model (some roi) settings.confidenceThreshold)
        else predict model (some roi) settings.confidenceThreshold) with hp
      have hok2 : ∀ k ∈ rest, ∃ s2 roi2, spots.get? k = some s2 ∧
          frame.crop s2 = .ok roi2 ∧ k < (status.set j (some p)).length := by
        intro k hk
        obtain ⟨s2, roi2, h1, h2, h3⟩ := hok k (List.mem_cons_of_mem j hk)
        exact ⟨s2, roi2, h1, h2, by simpa using h3⟩
      obtain ⟨hr, hchar⟩ := ih (status.set j (some p)) hok2
      refine ⟨hr, fun i => ?_⟩
      rw [hchar i]
      by_cases hij : i = j
      · subst hij
        have hres : spotResult settings model frame spots status i = some p := by
          simp only [spotResult, hs, hc]
          simp [hsz, hp]
        by_cases hmem : i ∈ rest
        · rw [if_pos hmem, if_pos (List.mem_cons_self i rest)]
          have hres2 : spotResult settings model frame spots
              (status.set i (some p)) i = some p := by
            simp only [spotResult, hs, hc]
            simp [hsz, hp]
          rw [hres, hres2]
        · rw [if_neg hmem, if_pos (List.mem_cons_self i rest), hres]
          exact getD_set_self _ _ _ _ hjl
      · have hji : j ≠ i := fun h => hij h.symm
        by_cases hmem : i ∈ rest
        · rw [if_pos hmem, if_pos (List.mem_cons.mpr (Or.inr hmem))]
          exact spotResult_set_ne _ _ _ _ _ _ _ _ hji
        · have : i ∉ j :: rest := by
            intro h
            rcases List.mem_cons.mp h with h1 | h1
            · exact hij h1
            · exact hmem h1
          rw [if_neg hmem, if_neg this]
          exact getD_set_ne _ _ _ _ _ hji
    · simp only [hsz, if_false]
      have hok2 : ∀ k ∈ rest, ∃ s2 roi2, spots.get? k = some s2 ∧
          frame.crop s2 = .ok roi2 ∧ k < status.length :=
        fun k hk => hok k (List.mem_cons_of_mem j hk)
      obtain ⟨hr, hchar⟩ := ih status hok2
      refine ⟨hr, fun i => ?_⟩
      rw [hchar i]
      by_cases hij : i = j
      · subst hij
        have hres : spotResult settings model frame spots status i =
            status.getD i none := by
          simp only [spotResult, hs, hc]
          simp [hsz]
        by_cases hmem : i ∈ rest
        · rw [if_pos hmem, if_pos (List.mem_cons_self i rest)]
        · rw [if_neg hmem, if_pos (List.mem_cons_self i rest), hres]
      · by_cases hmem : i ∈ rest
        · rw [if_pos hmem, if_pos (List.mem_cons.mpr (Or.inr hmem))]
        · have : i ∉ j :: rest := by
            intro h
            rcases List.mem_cons.mp h with h1 | h1
            · exact hij h1
            · exact hmem h1
          rw [if_neg hmem, if_neg this]

/-- Cropping raises `IndexError` exactly when the array lacks a third
axis. -/
theorem crop_dims_ne (f : Frame) (s : Spot) (h : f.dims ≠ 3) :
    f.crop s = .error () := by
  obtain ⟨x, y, w, hh⟩ := s
  simp [Frame.crop, h]

/-- Cropping a 3-axis frame always succeeds. -/
theorem crop_dims_eq (f : Frame) (s : Spot) (h : f.dims = 3) :
    ∃ roi, f.crop s = .ok roi := by
  obtain ⟨x, y, w, hh⟩ := s
  simp [Frame.crop, h]

/-- The first candidate whose crop raises aborts the classification loop
with the statuses untouched. -/
theorem statusLoop_head_error (settings : AppSettings) (model : MLModel)
    (frame : Frame) (j : Nat) (rest : List Nat) (spots : List Spot)
    (status : List (Option Bool)) (s : Spot) (hs : spots.get? j = some s)
    (hc : frame.crop s = .error ()) :
    statusLoop settings model frame (j :: rest) spots status = (status, true) := by
  simp only [statusLoop, hs, hc]

/-- A raising crop of the first spot aborts the difference loop with the
differences untouched. -/
theorem updateDiffsLoop_head_error (cur prev : Frame) (s : Spot)
    (rest : List Spot) (diffs : List (Option PyFloat)) (idx : Nat)
    (h : cur.crop s = .error () ∨ prev.crop s = .error ()) :
    updateDiffsLoop cur prev (s :: rest) diffs idx = (diffs, true) := by
  simp only [updateDiffsLoop]
  rcases h with h | h
  · simp [h]
  · cases hc : cur.crop s <;> simp [h, hc]

/-- With no previous sampled frame the candidate set is all indices. -/
theorem getSpotsToCheck_no_prev (st : VPState) (h : st.previousFrame = none) :
    getSpotsToCheck st = .ok (List.range st.spots.length) := by
  simp [getSpotsToCheck, h]

/-- The classification loop preserves the length of the status table. -/
theorem statusLoop_length (settings : AppSettings) (model : MLModel)
    (frame : Frame) (toCheck : List Nat) (spots : List Spot)
    (status : List (Option Bool)) :
    (statusLoop settings model frame toCheck spots status).1.length =
      status.length := by
  induction toCheck generalizing status with
  | nil => rfl
  | cons j rest ih =>
    simp only [statusLoop]
    cases hs : spots.get? j with
    | none => rfl
    | some s =>
      simp only [hs]
      cases hc : frame.crop s with
      | error e => rfl
      | ok roi =>
        simp only [hc]
        by_cases hsz : 0 < roi.size
        · simp only [hsz, if_true]
          by_cases hjl : j < status.length
          · simp only [hjl, if_true]
            rw [ih]
            exact List.length_set status j _
          · simp [hjl]
        · simp only [hsz, if_false]
          exact ih status

/-- `_update_spot_statuses` preserves the length of the status table. -/
theorem updateSpotStatuses_length (settings : AppSettings) (model : MLModel)
    (st : VPState) (frame : Frame) :
    (updateSpotStatuses settings model st frame).1.length =
      st.spotsStatus.length := by
  unfold updateSpotStatuses
  cases h : getSpotsToCheck st with
  | error e => rfl
  | ok l => simp [h, statusLoop_length]

/-- Every index in the dropped range is a non-background label. -/
theorem mem_range_drop {n i : Nat} (h : i ∈ (List.range n).drop 1) :
    1 ≤ i ∧ i < n := by
  cases n with
  | zero => simp at h
  | succ k =>
    rw [List.range_succ_eq_map] at h
    simp only [List.drop_succ_cons, List.drop_zero, List.mem_map] at h
    obtain ⟨j, hj, rfl⟩ := h
    have := List.mem_range.mp hj
    omega

/-- Filtering a mapped list is filterMap of the guarded map. -/
theorem map_filter_eq_filterMap {α β : Type} (f : α → β) (p : β → Bool)
    (l : List α) :
    (l.map f).filter p =
      l.filterMap fun a => if p (f a) then some (f a) else none := by
  induction l with
  | nil => rfl
  | cons x xs ih =>
    simp only [List.map_cons, List.filter_cons, List.filterMap_cons]
    by_cases hp : p (f x) <;> simp [hp, ih]

/-- Length of a guarded filterMap is a count. -/
theorem filterMap_if_length {α β : Type} (f : α → β) (p : β → Bool)
    (l : List α) :
    (l.filterMap fun a => if p (f a) then some (f a) else none).length =
      l.countP fun a => p (f a) := by
  induction l with
  | nil => rfl
  | cons x xs ih =>
    by_cases hp : p (f x) <;>
      simp [List.filterMap_cons, List.countP_cons, hp, ih]

/-- Every status entry is exactly one of Empty, Occupied, Unknown, so the
three counts partition the table. -/
theorem countP_status_partition (l : List (Option Bool)) :
    l.countP (fun s => s = some true) + l.countP (fun s => s = some false) +
      l.countP (fun s => s = none) = l.length := by
  induction l with
  | nil => rfl
  | cons x xs ih =>
    cases x with
    | none =>
      simp only [List.countP_cons, List.length_cons]
      simp
      omega
    | some b =>
      cases b <;> simp only [List.countP_cons, List.length_cons] <;>
        simp <;> omega

/-- `process_frame` on a non-sampling frame: counters advance, nothing
else happens, the annotated frame is returned. -/
theorem processFrame_not_sampling (settings : AppSettings) (model : MLModel)
    (st : VPState) (frame : Frame)
    (h0 : ¬ st.processingStep = 0)
    (hm : ¬ (st.frameNumber + 1) % st.processingStep = 0) :
    processFrame settings model st frame =
      ({ st with frameNumber := st.frameNumber + 1,
                 totalFrames := st.totalFrames + 1 }, true) := by
  simp [processFrame, h0, hm]

/-- `process_frame` with cadence 0: the counters advance, then the
modulus raises `ZeroDivisionError` and the frame is rejected. -/
theorem processFrame_step_zero (settings : AppSettings) (model : MLModel)
    (st : VPState) (frame : Frame) (h0 : st.processingStep = 0) :
    processFrame settings model st frame =
      ({ st with frameNumber := st.frameNumber + 1,
                 totalFrames := st.totalFrames + 1 }, false) := by
  simp [processFrame, h0]

/-- `process_frame` on a first sampling frame (no previous snapshot):
the difference step is skipped and the outcome is decided by
`_update_spot_statuses`. -/
theorem processFrame_sampling_none (settings : AppSettings) (model : MLModel)
    (st : VPState) (frame : Frame)
    (h0 : ¬ st.processingStep = 0)
    (hm : (st.frameNumber + 1) % st.processingStep = 0)
    (hprev : st.previousFrame = none) :
    processFrame settings model st frame =
      (if (updateSpotStatuses settings model
            { st with frameNumber := st.frameNumber + 1,
                      totalFrames := st.totalFrames + 1,
                      processedFrames := st.processedFrames + 1 } frame).2
       then ({ st with frameNumber := st.frameNumber + 1,
                       totalFrames := st.totalFrames + 1,
                       processedFrames := st.processedFrames + 1,
                       spotsStatus := (updateSpotStatuses settings model
                         { st with frameNumber := st.frameNumber + 1,
                                   totalFrames := st.totalFrames + 1,
                                   processedFrames := st.processedFrames + 1 }
                         frame).1 }, false)
       else ({ st with frameNumber := st.frameNumber + 1,
                       totalFrames := st.totalFrames + 1,
                       processedFrames := st.processedFrames + 1,
                       spotsStatus := (updateSpotStatuses settings model
                         { st with frameNumber := st.frameNumber + 1,
                                   totalFrames := st.totalFrames + 1,
                                   processedFrames := st.processedFrames + 1 }
                         frame).1,
                       previousFrame := some frame }, true)) := by
  simp [processFrame, h0, hm, hprev]

/-- `process_frame` on a later sampling frame (snapshot present): the
difference loop runs first; a raise there rejects the frame keeping the
partially updated differences, otherwise `_update_spot_statuses`
decides. -/
theorem processFrame_sampling_some (settings : AppSettings) (model : MLModel)
    (st : VPState) (frame : Frame) (p : Frame)
    (h0 : ¬ st.processingStep = 0)
    (hm : (st.frameNumber + 1) % st.processingStep = 0)
    (hprev : st.previousFrame = some p) :
    processFrame settings model st frame =
      (if (updateDiffsLoop frame p st.spots st.diffs 0).2
       then ({ st with frameNumber := st.frameNumber + 1,
                       totalFrames := st.totalFrames + 1,
                       processedFrames := st.processedFrames + 1,
                       diffs := (updateDiffsLoop frame p st.spots st.diffs 0).1 },
             false)
       else
         (if (updateSpotStatuses settings model
              { st with frameNumber := st.frameNumber + 1,
                        totalFrames := st.totalFrames + 1,
                        processedFrames := st.processedFrames + 1,
                        diffs := (updateDiffsLoop frame p st.spots st.diffs 0).1 }
              frame).2
          then ({ st with frameNumber := st.frameNumber + 1,
                          totalFrames := st.totalFrames + 1,
                          processedFrames := st.processedFrames + 1,
                          diffs := (updateDiffsLoop frame p st.spots st.diffs 0).1,
                          spotsStatus := (updateSpotStatuses settings model
                            { st with frameNumber := st.frameNumber + 1,
                                      totalFrames := st.totalFrames + 1,
                                      processedFrames := st.processedFrames + 1,
                                      diffs := (updateDiffsLoop frame p st.spots
                                        st.diffs 0).1 } frame).1 }, false)
          else ({ st with frameNumber := st.frameNumber + 1,
                          totalFrames := st.totalFrames + 1,
                          processedFrames := st.processedFrames + 1,
                          diffs := (updateDiffsLoop frame p st.spots st.diffs 0).1,
                          spotsStatus := (updateSpotStatuses settings model
                            { st with frameNumber := st.frameNumber + 1,
                                      totalFrames := st.totalFrames + 1,
                                      processedFrames := st.processedFrames + 1,
                                      diffs := (updateDiffsLoop frame p st.spots
                                        st.diffs 0).1 } frame).1,
                          previousFrame := some frame }, true))) := by
  simp [processFrame, h0, hm, hprev]

/-! ## Claim theorems -/

/-- **C1** — Candidate-set selection (`VideoProcessor._get_spots_to_check`):
if no previous sampled frame exists the candidate set is all spot indices;
otherwise, with `M` the maximum change magnitude across all spots (the
third conjunct certifies that `pyMaxVals` really is the maximum: a member
that dominates every magnitude), the candidate set is all spots when
`M == 0`, else every spot whose magnitude is ≥ `diff_threshold × M`,
falling back to all spots when that set is empty — i.e. exactly
`specCandidates`, the spec's wording. Magnitudes are NaN-free and
nonnegative, as change magnitudes (absolute differences or `inf`) are. -/
theorem candidate_set_selection (st : VPState) (l : List PyFloat)
    (hdiffs : st.diffs = l.map some)
    (hlen : l.length = st.spots.length)
    (hnn : ∀ d ∈ l, d ≠ .nan ∧ d.ge (.num 0) = true)
    (hthr : 0 ≤ st.diffThreshold) :
    (st.previousFrame = none →
      getSpotsToCheck st = .ok (List.range st.spots.length)) ∧
    (∀ f, st.previousFrame = some f →
      getSpotsToCheck st =
        .ok (specCandidates st.diffThreshold l st.spots.length)) ∧
    (∀ M, pyMaxVals l = some M → M ∈ l ∧ ∀ d ∈ l, M.ge d = true) := by
  refine ⟨fun h => by simp [getSpotsToCheck, h], ?_, fun M hM =>
    ⟨pyMaxVals_mem hM, pyMaxVals_isMax hM fun d hd => (hnn d hd).1⟩⟩
  intro f hf
  cases l with
  | nil =>
    have hd0 : st.diffs = [] := by simp [hdiffs]
    simp [getSpotsToCheck, hf, hd0, specCandidates, pyMaxVals]
  | cons x xs =>
    have hM0 : pyMaxVals (x :: xs) =
        some (xs.foldl (fun acc y => if y.gt acc then y else acc) x) := rfl
    set M := xs.foldl (fun acc y => if y.gt acc then y else acc) x with hMdef
    have hMmem : M ∈ x :: xs := pyMaxVals_mem hM0
    have hMnan : M ≠ .nan := (hnn M hMmem).1
    have hMnn : M.ge (.num 0) = true := (hnn M hMmem).2
    have hmax : pyMax st.diffs = .ok (some M) := by
      rw [hdiffs, pyMax_map_some, hM0]
    have hne : st.diffs.isEmpty = false := by rw [hdiffs]; rfl
    have hcode : getSpotsToCheck st =
        (if M.eqZero then Except.ok (List.range st.spots.length)
         else
           Except.ok
             (if ((st.diffs.enum.filter fun p =>
                    match p.2 with
                    | some d => d.ge (M.mulRat st.diffThreshold)
                    | none => false).map Prod.fst).isEmpty = true
              then List.range st.spots.length
              else ((st.diffs.enum.filter fun p =>
                    match p.2 with
                    | some d => d.ge (M.mulRat st.diffThreshold)
                    | none => false).map Prod.fst))) := by
      rw [getSpotsToCheck.eq_def, hf]
      simp only [hne, Bool.false_eq_true, if_false, hmax]
    rw [hcode]
    have hF : ((st.diffs.enum.filter fun p =>
          match p.2 with
          | some d => d.ge (M.mulRat st.diffThreshold)
          | none => false).map Prod.fst) =
        idxWhere (fun d => d.ge (M.mulRat st.diffThreshold)) (x :: xs) 0 := by
      rw [hdiffs]
      exact enum_filter_map_fst _ (x :: xs) 0
    have hC : ∀ T : PyFloat, ((List.range (x :: xs).length).filter fun i =>
          ((x :: xs).getD i .nan).ge T) =
        idxWhere (fun d => d.ge T) (x :: xs) 0 :=
      fun T => range_filter_getD (fun d => d.ge T) (x :: xs) .nan
    by_cases hz : M.eqZero = true
    · have hM00 : M = .num 0 := (PyFloat.eqZero_iff M).mp hz
      rw [if_pos hz]
      have hsp : specCandidates st.diffThreshold (x :: xs) st.spots.length =
          List.range st.spots.length := by
        simp only [specCandidates, hM0]
        rw [if_pos hM00]
      rw [hsp]
    · have hMne0 : M ≠ .num 0 := fun hq => hz ((PyFloat.eqZero_iff M).mpr hq)
      have hspec : specCandidates st.diffThreshold (x :: xs) st.spots.length =
          (if ((List.range st.spots.length).filter fun i =>
                ((x :: xs).getD i .nan).ge
                  (specThreshold st.diffThreshold M)).isEmpty = true
           then List.range st.spots.length
           else ((List.range st.spots.length).filter fun i =>
                ((x :: xs).getD i .nan).ge
                  (specThreshold st.diffThreshold M))) := by
        simp only [specCandidates, hM0, if_neg hMne0]
      rw [hspec, if_neg (by simp [hz] : ¬(M.eqZero = true)), hF]
      rw [← hlen, hC]
      cases hMc : M with
      | num q =>
        have hT : PyFloat.mulRat (.num q) st.diffThreshold =
            specThreshold st.diffThreshold (.num q) := rfl
        rw [hT]
      | inf =>
        by_cases ht0 : st.diffThreshold = 0
        · have hTnan : PyFloat.mulRat .inf st.diffThreshold = .nan := by
            simp [PyFloat.mulRat, ht0]
          have hT0 : specThreshold st.diffThreshold .inf = .num 0 := by
            simp [specThreshold, ht0]
          have hFnil : idxWhere
              (fun d => d.ge (PyFloat.mulRat .inf st.diffThreshold)) (x :: xs) 0 = [] := by
            apply idxWhere_false
            intro d _
            rw [hTnan]
            exact PyFloat.ge_nan d
          have hCall : idxWhere
              (fun d => d.ge (specThreshold st.diffThreshold .inf)) (x :: xs) 0 =
              List.range (x :: xs).length := by
            rw [← hC]
            apply List.filter_eq_self.mpr
            intro i hi
            have hilt : i < (x :: xs).length := List.mem_range.mp hi
            have : (x :: xs).getD i .nan ∈ (x :: xs) := by
              rw [List.getD_eq_getElem _ _ hilt]
              exact List.getElem_mem hilt
            rw [hT0]
            exact (hnn _ this).2
          rw [hFnil, hCall]
          simp
        · have hpos : 0 < st.diffThreshold := lt_of_le_of_ne hthr (Ne.symm ht0)
          have hT : PyFloat.mulRat .inf st.diffThreshold =
              specThreshold st.diffThreshold .inf := by
            simp [PyFloat.mulRat, specThreshold, ht0, hpos]
          rw [hT]
      | neginf =>
        rw [hMc] at hMnn
        simp [PyFloat.ge] at hMnn
      | nan => exact absurd hMc hMnan

/-- Witness for **C1**: a 2-spot engine with magnitudes 1 and 4 and
`diff_threshold = 0.5` selects exactly spot 1 (threshold 2). -/
theorem candidate_set_selection_witness :
    getSpotsToCheck twoSpotState = .ok [1] := by
  have h := (candidate_set_selection twoSpotState [.num 1, .num 4] rfl
      (by decide) (by decide) (by decide)).2.1 bigFrame rfl
  rw [h]
  rfl

/-- **C5** — During a sampling pass, every spot outside the candidate set
retains its previous status unchanged (`_update_spot_statuses` writes only
candidate indices; stale status is preserved rather than reset to
Unknown), even when the pass aborts part-way. -/
theorem stale_status_preserved (settings : AppSettings) (model : MLModel)
    (st : VPState) (frame : Frame) (l : List Nat) (i : Nat)
    (hl : getSpotsToCheck st = .ok l) (hi : i ∉ l) :
    (updateSpotStatuses settings model st frame).1.getD i none =
    st.spotsStatus.getD i none := by
  simp only [updateSpotStatuses, hl]
  exact statusLoop_not_mem settings model frame l st.spots st.spotsStatus i hi

/-- Witness for **C5**: spot 0 is not a candidate (magnitudes 1 vs 4,
threshold 0.5), and keeps its previous status. -/
theorem stale_status_preserved_witness :
    (updateSpotStatuses stdSettings plainModel twoSpotState bigFrame).1.getD 0 none =
      twoSpotState.spotsStatus.getD 0 none :=
  stale_status_preserved stdSettings plainModel twoSpotState bigFrame [1] 0
    rfl (by decide)

/-- **C10** — For every candidate spot with a non-empty crop, the stored
status equals the classifier's returned value when `INVERT_PREDICTION` is
false and its Boolean negation when it is true, and the confidence
threshold forwarded to the classifier is the global settings'
`CONFIDENCE_THRESHOLD` (the engine's constructor has no such parameter —
`VPState` carries no confidence field). -/
theorem status_uses_settings (settings : AppSettings) (model : MLModel)
    (st : VPState) (frame : Frame) (l : List Nat) (i : Nat)
    {s : Spot} {roi : Roi}
    (hl : getSpotsToCheck st = .ok l) (hi : i ∈ l)
    (hok : ∀ j ∈ l, ∃ s2 roi2, st.spots.get? j = some s2 ∧
      frame.crop s2 = .ok roi2 ∧ j < st.spotsStatus.length)
    (hs : st.spots.get? i = some s) (hroi : frame.crop s = .ok roi)
    (hsz : 0 < roi.size) :
    (updateSpotStatuses settings model st frame).1.getD i none =
      some (if settings.invertPrediction
        then !(predict model (some roi) settings.confidenceThreshold)
        else predict model (some roi) settings.confidenceThreshold) := by
  simp only [updateSpotStatuses, hl]
  obtain ⟨hr, hchar⟩ := statusLoop_characterize settings model frame l
    st.spots st.spotsStatus hok
  rw [hchar i, if_pos hi]
  simp only [spotResult, hs, hroi]
  simp [hsz]

/-- Witness for **C10**: candidate spot 1 of the two-spot engine is
classified with the default settings (threshold 0.5, no inversion) and
stores the plain model's `Empty` answer. -/
theorem status_uses_settings_witness :
    (updateSpotStatuses stdSettings plainModel twoSpotState bigFrame).1.getD 1 none =
      some true := by
  have h := status_uses_settings stdSettings plainModel twoSpotState bigFrame [1] 1
      rfl (by decide)
      (by
        intro j hj
        have hj1 : j = 1 := by simpa using hj
        subst hj1
        exact ⟨_, _, rfl, rfl, by decide⟩)
      rfl rfl (by decide)
  rw [h]
  rfl

/-- Counterexample to **C4** as stated: spot 0 is a candidate (first
sampling pass) and its crop from the 5×5 frame is degenerate (empty), but
`_update_spot_statuses` SKIPS the spot instead of storing Occupied — the
status stays Unknown (`none`), not `some OCCUPIED`, even with a classifier
that always fails. -/
theorem classifier_failure_cex :
    (updateSpotStatuses stdSettings throwingModel oneSpotState smallFrame).1.getD 0 none
      = none ∧
    (updateSpotStatuses stdSettings throwingModel oneSpotState smallFrame).1.getD 0 none
      ≠ some OCCUPIED := by
  constructor
  · rfl
  · decide

/-- **C4 (amended)** — Per-spot classifier failure handling: the predictor
returns Occupied (never raising) for a `None` image, for an empty crop,
and whenever inference throws; during a sampling pass whose candidates are
in range with succeeding crops, the update loop never raises — a spot
whose inference throws stores Occupied (under the default non-inverted
settings) and processing continues for the remaining spots — but a spot
whose crop is empty is skipped by the processor, retaining its prior
status rather than becoming Occupied. -/
theorem classifier_failure_amended :
    (∀ (model : MLModel) (thr : ℚ), predict model none thr = OCCUPIED) ∧
    (∀ (model : MLModel) (roi : Roi) (thr : ℚ), roi.size = 0 →
      predict model (some roi) thr = OCCUPIED) ∧
    (∀ (model : MLModel) (roi : Roi) (thr : ℚ), model.raises roi = true →
      predict model (some roi) thr = OCCUPIED) ∧
    (∀ (settings : AppSettings) (model : MLModel) (st : VPState)
      (frame : Frame) (l : List Nat),
      getSpotsToCheck st = .ok l →
      (∀ j ∈ l, ∃ s roi, st.spots.get? j = some s ∧ frame.crop s = .ok roi ∧
        j < st.spotsStatus.length) →
      (updateSpotStatuses settings model st frame).2 = false ∧
      (∀ i ∈ l, ∀ (s : Spot) (roi : Roi), st.spots.get? i = some s →
        frame.crop s = .ok roi →
        (settings.invertPrediction = false → 0 < roi.size →
          model.raises roi = true →
          (updateSpotStatuses settings model st frame).1.getD i none =
            some OCCUPIED) ∧
        (roi.size = 0 →
          (updateSpotStatuses settings model st frame).1.getD i none =
            st.spotsStatus.getD i none))) := by
  refine ⟨fun model thr => rfl, fun model roi thr h => by simp [predict, h],
    fun model roi thr h => ?_, ?_⟩
  · by_cases hsz : roi.size = 0
    · simp [predict, hsz]
    · simp [predict, hsz, h]
  · intro settings model st frame l hl hok
    simp only [updateSpotStatuses, hl]
    obtain ⟨hr, hchar⟩ := statusLoop_characterize settings model frame l
      st.spots st.spotsStatus hok
    refine ⟨hr, fun i hi s roi hs hroi => ⟨fun hinv hsz hraise => ?_, fun hsz => ?_⟩⟩
    · rw [hchar i, if_pos hi]
      have hne : roi.size ≠ 0 := Nat.pos_iff_ne_zero.mp hsz
      simp only [spotResult, hs, hroi]
      simp [hsz, predict, hne, hraise, hinv, OCCUPIED]
    · rw [hchar i, if_pos hi]
      simp only [spotResult, hs, hroi]
      simp [hsz]

/-- Witness for **C4 (amended)**: on the one-spot engine with a
full-size frame and an always-throwing model, the pass completes without
raising and the spot's status becomes Occupied. -/
theorem classifier_failure_amended_witness :
    (updateSpotStatuses stdSettings throwingModel oneSpotState bigFrame).2 = false ∧
    (updateSpotStatuses stdSettings throwingModel oneSpotState bigFrame).1.getD 0 none
      = some OCCUPIED := by
  have h := classifier_failure_amended.2.2.2 stdSettings throwingModel
      oneSpotState bigFrame [0] rfl
      (by
        intro j hj
        have hj0 : j = 0 := by simpa using hj
        subst hj0
        exact ⟨_, _, rfl, rfl, by decide⟩)
  exact ⟨h.1, (h.2 0 (by decide) _ _ rfl rfl).1 rfl (by decide) rfl⟩

/-- Counterexample to **C2** as stated: the 5×5×3 frame's dimensions
disagree with the spot region (10,10,20,20) (which needs at least a 30×30
frame), yet `process_frame` does NOT reject it — the call returns an
annotated frame and the previous-frame snapshot IS replaced (its crops are
merely clipped to empty). -/
theorem frame_shape_mismatch_cex :
    (processFrame stdSettings plainModel oneSpotState smallFrame).2 = true ∧
    oneSpotState.previousFrame = none ∧
    (processFrame stdSettings plainModel oneSpotState smallFrame).1.previousFrame.isSome
      = true :=
  ⟨rfl, rfl, rfl⟩

/-- **C2 (amended)** — On a sampling frame with at least one spot, a frame
whose array dimensionality prevents ROI indexing (`ndim ≠ 3`) is rejected:
`frame_number` (and the other counters) still advance, while statuses,
magnitudes and the previous-frame snapshot are untouched. A 3-axis frame,
however small its height or width, is NOT rejected on a first sampling
pass: crops are clipped, and the snapshot is replaced by it. -/
theorem frame_shape_mismatch_amended (settings : AppSettings) (model : MLModel)
    (st : VPState) (frame : Frame)
    (hstep : 0 < st.processingStep)
    (hsamp : (st.frameNumber + 1) % st.processingStep = 0)
    (hspots : st.spots ≠ []) :
    (frame.dims ≠ 3 →
      processFrame settings model st frame =
        ({ st with frameNumber := st.frameNumber + 1,
                   totalFrames := st.totalFrames + 1,
                   processedFrames := st.processedFrames + 1 }, false)) ∧
    (frame.dims = 3 → st.previousFrame = none →
      st.spots.length ≤ st.spotsStatus.length →
      (processFrame settings model st frame).2 = true ∧
      (processFrame settings model st frame).1.previousFrame = some frame) := by
  have hstep0 : ¬(st.processingStep = 0) := Nat.pos_iff_ne_zero.mp hstep
  obtain ⟨s0, tail, hsp⟩ : ∃ a t, st.spots = a :: t := by
    cases hsp : st.spots with
    | nil => exact absurd hsp hspots
    | cons a t => exact ⟨a, t, rfl⟩
  constructor
  · intro hdims
    have hcrop : frame.crop s0 = .error () := crop_dims_ne frame s0 hdims
    cases hprev : st.previousFrame with
    | none =>
      rw [processFrame_sampling_none settings model st frame hstep0 hsamp hprev]
      have hupd : (updateSpotStatuses settings model
          { st with frameNumber := st.frameNumber + 1,
                    totalFrames := st.totalFrames + 1,
                    processedFrames := st.processedFrames + 1 } frame) =
          (st.spotsStatus, true) := by
        have hget := getSpotsToCheck_no_prev
          { st with frameNumber := st.frameNumber + 1,
                    totalFrames := st.totalFrames + 1,
                    processedFrames := st.processedFrames + 1 } hprev
        simp only [updateSpotStatuses, hget]
        show statusLoop settings model frame (List.range st.spots.length)
          st.spots st.spotsStatus = (st.spotsStatus, true)
        rw [hsp, List.length_cons, List.range_succ_eq_map]
        exact statusLoop_head_error settings model frame 0 _ _ _ s0 rfl hcrop
      rw [hupd]
      simp [hprev]
    | some p =>
      rw [processFrame_sampling_some settings model st frame p hstep0 hsamp hprev]
      have hdl : updateDiffsLoop frame p st.spots st.diffs 0 = (st.diffs, true) := by
        rw [hsp]
        exact updateDiffsLoop_head_error frame p s0 tail st.diffs 0 (Or.inl hcrop)
      rw [hdl]
      simp [hprev]
  · intro hdims hprev hlen
    rw [processFrame_sampling_none settings model st frame hstep0 hsamp hprev]
    have hok : ∀ j ∈ List.range st.spots.length, ∃ s roi,
        st.spots.get? j = some s ∧ frame.crop s = .ok roi ∧
        j < st.spotsStatus.length := by
      intro j hj
      have hjlt : j < st.spots.length := List.mem_range.mp hj
      obtain ⟨s, hs⟩ : ∃ s, st.spots.get? j = some s :=
        ⟨st.spots.get ⟨j, hjlt⟩, List.get?_eq_get hjlt⟩
      obtain ⟨roi, hroi⟩ := crop_dims_eq frame s hdims
      exact ⟨s, roi, hs, hroi, lt_of_lt_of_le hjlt hlen⟩
    obtain ⟨hr, _⟩ := statusLoop_characterize settings model frame
      (List.range st.spots.length) st.spots st.spotsStatus hok
    have hupd2 : (updateSpotStatuses settings model
        { st with frameNumber := st.frameNumber + 1,
                  totalFrames := st.totalFrames + 1,
                  processedFrames := st.processedFrames + 1 } frame).2 = false := by
      have hget := getSpotsToCheck_no_prev
        { st with frameNumber := st.frameNumber + 1,
                  totalFrames := st.totalFrames + 1,
                  processedFrames := st.processedFrames + 1 } hprev
      simp only [updateSpotStatuses, hget]
      exact hr
    rw [hupd2]
    exact ⟨rfl, rfl⟩

/-- Witness for **C2 (amended)**: a 2-axis (grayscale) frame submitted to
the fresh one-spot cadence-1 engine is rejected with only the counters
advanced; the same engine accepts a full 3-axis frame and snapshots it. -/
theorem frame_shape_mismatch_amended_witness :
    (processFrame stdSettings plainModel oneSpotState grayFrame).2 = false ∧
    (processFrame stdSettings plainModel oneSpotState grayFrame).1.frameNumber = 1 ∧
    (processFrame stdSettings plainModel oneSpotState grayFrame).1.spotsStatus = [none] ∧
    (processFrame stdSettings plainModel oneSpotState grayFrame).1.previousFrame.isNone
      = true ∧
    (processFrame stdSettings plainModel oneSpotState bigFrame).2 = true := by
  have h := frame_shape_mismatch_amended stdSettings plainModel oneSpotState
      grayFrame (by decide) (by decide) (by decide)
  have h1 := h.1 (by decide)
  have h2 := frame_shape_mismatch_amended stdSettings plainModel oneSpotState
      bigFrame (by decide) (by decide) (by decide)
  have h3 := (h2.2 rfl rfl (by decide)).1
  rw [h1]
  exact ⟨rfl, rfl, rfl, rfl, h3⟩

/-- **C6** — For every submitted frame, `frame_number` increases by
exactly 1 (hence is monotonically non-decreasing), and `processed_frames`
(the sampled-frame count) increases by exactly 1 if and only if the
resulting `frame_number` is divisible by the cadence; otherwise it is
unchanged. This holds on every path, including rejected frames. -/
theorem frame_counter_monotonic (settings : AppSettings) (model : MLModel)
    (st : VPState) (frame : Frame) (hstep : 0 < st.processingStep) :
    (processFrame settings model st frame).1.frameNumber = st.frameNumber + 1 ∧
    ((processFrame settings model st frame).1.processedFrames =
        st.processedFrames + 1 ↔
      (st.frameNumber + 1) % st.processingStep = 0) ∧
    ((st.frameNumber + 1) % st.processingStep ≠ 0 →
      (processFrame settings model st frame).1.processedFrames =
        st.processedFrames) := by
  have hstep0 : ¬ st.processingStep = 0 := Nat.pos_iff_ne_zero.mp hstep
  by_cases hm : (st.frameNumber + 1) % st.processingStep = 0
  · have hproj : (processFrame settings model st frame).1.frameNumber =
        st.frameNumber + 1 ∧
        (processFrame settings model st frame).1.processedFrames =
          st.processedFrames + 1 := by
      cases hprev : st.previousFrame with
      | none =>
        rw [processFrame_sampling_none settings model st frame hstep0 hm hprev]
        split <;> exact ⟨rfl, rfl⟩
      | some p =>
        rw [processFrame_sampling_some settings model st frame p hstep0 hm hprev]
        split
        · exact ⟨rfl, rfl⟩
        · split <;> exact ⟨rfl, rfl⟩
    exact ⟨hproj.1, ⟨fun _ => hm, fun _ => hproj.2⟩, fun hne => absurd hm hne⟩
  · rw [processFrame_not_sampling settings model st frame hstep0 hm]
    refine ⟨rfl, ⟨fun h => ?_, fun h => absurd h hm⟩, fun _ => rfl⟩
    simp at h

/-- Witness for **C6**: the fresh cadence-1 engine advances to frame 1,
which samples, so the processed count becomes 1. -/
theorem frame_counter_monotonic_witness :
    (processFrame stdSettings plainModel oneSpotState bigFrame).1.frameNumber = 1 ∧
    (processFrame stdSettings plainModel oneSpotState bigFrame).1.processedFrames = 1 := by
  have h := frame_counter_monotonic stdSettings plainModel oneSpotState bigFrame
    (by decide)
  exact ⟨h.1, h.2.1.mpr (by decide)⟩

/-- Counterexample to **C3** as stated: for a mask whose only
non-background component is 5×5 (so nothing survives the size filter),
`detect_spots` raises no error — it returns an empty list — and
initialization still succeeds: the engine reaches Ready with zero
spots. -/
theorem mask_error_cex :
    detectSpots { mask := some tinyMask, scaleCoef := 1 } = .ok [] ∧
    (initProcessor { mask := some tinyMask, scaleCoef := 1 } true oneSpotState).2
      = true :=
  ⟨rfl, rfl⟩

/-- **C3 (amended)** — An unreadable mask (`cv2.imread` returning `None`)
raises during detector construction, so the engine never reaches Ready;
but when no connected component survives the size filter, extraction
succeeds with an empty spot list and initialization completes: the engine
reaches Ready with zero spots (no `InvalidMaskError` exists in the
code). -/
theorem mask_error_amended :
    (∀ c : ℚ, detectorNew none c = .error ()) ∧
    (∀ (m : MaskCC) (d : ParkingSpotDetector), d.mask = some m →
      (∀ i, 1 ≤ i → i < m.totalLabels →
        ¬(10 < (scaledBox (m.stats i) d.scaleCoef).2.2.1 ∧
          10 < (scaledBox (m.stats i) d.scaleCoef).2.2.2)) →
      detectSpots d = .ok [] ∧
      ∀ st, (initProcessor d true st).2 = true) := by
  refine ⟨fun c => rfl, fun m d hm hfail => ?_⟩
  have hdet : detectSpots d = .ok [] := by
    simp only [detectSpots, hm]
    congr 1
    rw [List.filter_eq_nil_iff]
    intro a ha
    obtain ⟨i, hi, rfl⟩ := List.mem_map.mp ha
    obtain ⟨h1, h2⟩ := mem_range_drop hi
    have hni := hfail i h1 h2
    simp only [Bool.and_eq_true, decide_eq_true_eq, not_and]
    intro hw hh
    exact hni ⟨hw, hh⟩
  exact ⟨hdet, fun st => by simp [initProcessor, hdet]⟩

/-- Witness for **C3 (amended)**: a `None` imread raises; the tiny mask at
scale 2 (boxes 10×10, still failing the strict `> 10` filter) initializes
to Ready. -/
theorem mask_error_amended_witness :
    detectorNew none (1 : ℚ) = .error () ∧
    (initProcessor { mask := some tinyMask, scaleCoef := 2 } true oneSpotState).2
      = true := by
  have h := mask_error_amended
  refine ⟨h.1 1,
    (h.2 tinyMask { mask := some tinyMask, scaleCoef := 2 } rfl ?_).2 oneSpotState⟩
  intro i h1 h2
  rw [show tinyMask.totalLabels = 2 from rfl] at h2
  have hi1 : i = 1 := by omega
  subst hi1
  decide

/-- **C7** — Extraction returns exactly the non-background components
surviving the size filter: one scaled box per stats row with post-scale
width and height both exceeding 10 (rows with either ≤ 10 are discarded),
in label order (`survivors`, the spec's wording); the result's length is
the count of surviving rows; and extraction is deterministic: detectors
with the same mask data and scale produce the same boxes in the same
order. -/
theorem extraction_components (d : ParkingSpotDetector) (m : MaskCC)
    (hm : d.mask = some m) :
    detectSpots d = .ok (survivors m d.scaleCoef) ∧
    (survivors m d.scaleCoef).length =
      ((List.range m.totalLabels).drop 1).countP (fun i =>
        decide (10 < (scaledBox (m.stats i) d.scaleCoef).2.2.1) &&
        decide (10 < (scaledBox (m.stats i) d.scaleCoef).2.2.2)) ∧
    (∀ d2 : ParkingSpotDetector, d2.mask = d.mask →
      d2.scaleCoef = d.scaleCoef → detectSpots d2 = detectSpots d) := by
  refine ⟨?_, ?_, ?_⟩
  · simp only [detectSpots, hm, survivors]
    congr 1
    exact map_filter_eq_filterMap (fun i => scaledBox (m.stats i) d.scaleCoef)
      (fun s => decide (10 < s.2.2.1) && decide (10 < s.2.2.2)) _
  · simp only [survivors]
    exact filterMap_if_length (fun i => scaledBox (m.stats i) d.scaleCoef)
      (fun b => decide (10 < b.2.2.1) && decide (10 < b.2.2.2)) _
  · intro d2 h1 h2
    simp only [detectSpots, h1, hm, h2]

/-- Witness for **C7**: the two-component mask yields exactly its two
boxes, in label order. -/
theorem extraction_components_witness :
    detectSpots { mask := some twoSpotMask, scaleCoef := 1 } =
      .ok [(10, 10, 20, 20), (50, 50, 20, 20)] := by
  have h := (extraction_components { mask := some twoSpotMask, scaleCoef := 1 }
      twoSpotMask rfl).1
  rw [h]
  rfl

/-- **C8** — `get_statistics` returns
`availability_rate = available / total` when `total > 0` and `0` when
`total == 0`, where `available` counts spots with status Empty. -/
theorem availability_rate_correct (st : VPState) :
    (0 < (getStatistics st).totalSpots →
      (getStatistics st).availabilityRate =
        ((getStatistics st).availableSpots : ℚ) /
          ((getStatistics st).totalSpots : ℚ)) ∧
    ((getStatistics st).totalSpots = 0 →
      (getStatistics st).availabilityRate = 0) := by
  constructor
  · intro h
    simp only [getStatistics] at h ⊢
    cases hs : st.spots with
    | nil => rw [hs] at h; simp at h
    | cons a t => simp
  · intro h
    simp only [getStatistics] at h ⊢
    cases hs : st.spots with
    | nil => simp
    | cons a t => rw [hs] at h; simp at h

/-- Witness for **C8**: 4 spots with 3 Empty and 1 Occupied yield an
availability rate of 0.75. -/
theorem availability_rate_correct_witness :
    0 < (getStatistics fourSpotState).totalSpots ∧
    (getStatistics fourSpotState).availabilityRate = 3 / 4 := by
  have h := (availability_rate_correct fourSpotState).1 (by decide)
  refine ⟨by decide, ?_⟩
  rw [h]
  decide

/-- **C9** — The statistics partition the spots exactly:
`available + occupied + unknown = total`, since every status entry is
exactly one of `some true` (Empty), `some false` (Occupied) or `none`
(Unknown). The alignment of the status table with the spot list is the
invariant established by initialization and preserved by every frame
submission (first two conjuncts). -/
theorem statistics_partition :
    (∀ (d : ParkingSpotDetector) (st st2 : VPState),
      initProcessor d true st = (st2, true) → TablesAligned st2) ∧
    (∀ (settings : AppSettings) (model : MLModel) (st : VPState) (frame : Frame),
      TablesAligned st → TablesAligned (processFrame settings model st frame).1) ∧
    (∀ st : VPState, TablesAligned st →
      (getStatistics st).availableSpots + (getStatistics st).occupiedSpots +
        (getStatistics st).unknownSpots = (getStatistics st).totalSpots) := by
  refine ⟨?_, ?_, ?_⟩
  · intro d st st2 hinit
    cases hdet : detectSpots d with
    | error e =>
      simp [initProcessor, hdet] at hinit
    | ok spots =>
      simp only [initProcessor, hdet] at hinit
      have hst2 := congrArg Prod.fst hinit
      simp only at hst2
      rw [← hst2]
      simp [TablesAligned]
  · intro settings model st frame hta
    by_cases h0 : st.processingStep = 0
    · rw [processFrame_step_zero settings model st frame h0]
      exact hta
    · by_cases hm : (st.frameNumber + 1) % st.processingStep = 0
      · cases hprev : st.previousFrame with
        | none =>
          rw [processFrame_sampling_none settings model st frame h0 hm hprev]
          split
          · simp only [TablesAligned, updateSpotStatuses_length]
            exact hta
          · simp only [TablesAligned, updateSpotStatuses_length]
            exact hta
        | some p =>
          rw [processFrame_sampling_some settings model st frame p h0 hm hprev]
          split
          · exact hta
          · split
            · simp only [TablesAligned, updateSpotStatuses_length]
              exact hta
            · simp only [TablesAligned, updateSpotStatuses_length]
              exact hta
      · rw [processFrame_not_sampling settings model st frame h0 hm]
        exact hta
  · intro st hta
    simp only [getStatistics]
    rw [← hta]
    exact countP_status_partition st.spotsStatus

/-- Witness for **C9**: a fresh initialization is aligned; a frame
submission preserves alignment; and the 3-Empty/1-Occupied table
partitions as 3 + 1 + 0 = 4. -/
theorem statistics_partition_witness :
    TablesAligned (initProcessor { mask := some twoSpotMask, scaleCoef := 1 }
      true oneSpotState).1 ∧
    TablesAligned (processFrame stdSettings plainModel oneSpotState bigFrame).1 ∧
    (getStatistics fourSpotState).availableSpots +
      (getStatistics fourSpotState).occupiedSpots +
      (getStatistics fourSpotState).unknownSpots =
      (getStatistics fourSpotState).totalSpots := by
  refine ⟨?_, ?_, statistics_partition.2.2 fourSpotState rfl⟩
  · exact statistics_partition.1 { mask := some twoSpotMask, scaleCoef := 1 }
      oneSpotState _ rfl
  · exact statistics_partition.2.1 stdSettings plainModel oneSpotState bigFrame rfl

end SmartParking
